import Mathlib

/-!
Shallow embedding of the `omnis` Gin middleware library: the correlation-id
middleware, the render service that wraps handler output in a uniform JSON
envelope, the JSON response interceptor, and the static-content cache
middleware.  Go maps are embedded as association lists, the Gin context as a
record of string-keyed stores, machine integers as `Int`, and fallible
operations as `Option`/`Except`.  External effects (UUID generation, the
current time, the arbor memory-log store, the Go runtime version) enter as
explicit parameters.
-/

namespace Omnis

/-- Whitespace predicate used by Go's `strings.TrimSpace` (ASCII subset). -/
def isSpaceChar (c : Char) : Bool :=
  c == ' ' || c == '\t' || c == '\n' || c == '\r'

/-- Embedding of Go's `strings.TrimSpace`: drop whitespace from both ends. -/
def goTrim (s : String) : String :=
  String.mk (((s.data.dropWhile isSpaceChar).reverse.dropWhile isSpaceChar).reverse)

/-- ASCII upper-casing of one character, as Go's `strings.ToUpper` does on ASCII input. -/
def goToUpperChar (c : Char) : Char :=
  if 'a' ≤ c ∧ c ≤ 'z' then Char.ofNat (c.toNat - 32) else c

/-- Embedding of Go's `strings.ToUpper` (ASCII subset). -/
def goToUpper (s : String) : String :=
  String.mk (s.data.map goToUpperChar)

/-- Helper for substring containment: does `sub` occur in the given list? -/
def containsSubAux (sub : List Char) : List Char → Bool
  | [] => sub.isPrefixOf ([] : List Char)
  | c :: rest => sub.isPrefixOf (c :: rest) || containsSubAux sub rest

/-- Embedding of Go's `strings.Contains`: substring containment. -/
def containsSub (s sub : String) : Bool :=
  containsSubAux sub.data s.data

/-- A value stored in the Gin context key/value bag: a string, a logger
instance, or some other non-string value. -/
inductive CtxVal where
  | str (s : String)
  | logger
  | other
deriving DecidableEq

/-- Embedding of the parts of `gin.Context` the library touches: the request
scoped key/value store, request headers, response headers, and the request
data consumed by `getApiResponse`. -/
structure GinCtx where
  store : List (String × CtxVal)
  reqHeaders : List (String × String)
  respHeaders : List (String × String)
  fullPath : String
  params : List (String × String)
  postForm : List (String × List String)
  query : List (String × List String)
deriving DecidableEq

/-- The empty Gin context. -/
def ginCtxEmpty : GinCtx :=
  { store := [], reqHeaders := [], respHeaders := [], fullPath := "",
    params := [], postForm := [], query := [] }

/-- The constant `CORRELATION_ID_KEY` from `common.go`. -/
def CORRELATION_ID_KEY : String := "correlationid"

/-- The constant `REQUEST_LOGGER` from `constants.go`. -/
def REQUEST_LOGGER : String := "omnis_request_logger"

/-- Embedding of `gin.Context.GetString`: the stored value when it exists and
is a string, and the empty string otherwise. -/
def GinCtx.getString (c : GinCtx) (k : String) : String :=
  match List.lookup k c.store with
  | some (CtxVal.str s) => s
  | _ => ""

/-- Embedding of `gin.Context.GetHeader`: the request header value, or the
empty string when absent. -/
def GinCtx.getHeader (c : GinCtx) (k : String) : String :=
  (List.lookup k c.reqHeaders).getD ""

/-- Embedding of `gin.Context.Set`. -/
def GinCtx.set (c : GinCtx) (k : String) (v : CtxVal) : GinCtx :=
  { c with store := (k, v) :: c.store }

/-- Embedding of `gin.Context.Header`: set a response header. -/
def GinCtx.setRespHeader (c : GinCtx) (k v : String) : GinCtx :=
  { c with respHeaders := (k, v) :: c.respHeaders }

/-- Read back a response header (most recent write wins). -/
def GinCtx.respHeader (c : GinCtx) (k : String) : Option String :=
  List.lookup k c.respHeaders

/-- Embedding of the request-processing body of `SetCorrelationID` from
`middleware_correlationid.go`.  The `uuid` parameter stands for the string the
`google/uuid` library would freshly generate (both the `NewRandom` result and
its `uuid.New` fallback produce a UUID string). -/
def SetCorrelationID (uuid : String) (ctx : GinCtx) : GinCtx :=
  let correlationID := ctx.getString CORRELATION_ID_KEY
  let correlationID := if correlationID = "" then ctx.getHeader "X-Correlation-ID" else correlationID
  let correlationID := if correlationID = "" then uuid else correlationID
  let ctx := ctx.set CORRELATION_ID_KEY (CtxVal.str correlationID)
  let ctx := ctx.setRespHeader "X-Correlation-ID" correlationID
  ctx.setRespHeader CORRELATION_ID_KEY correlationID

/-- Embedding of `GetCorrelationID` from `middleware_correlationid.go`; a
`none` argument models a nil `*gin.Context`. -/
def GetCorrelationID : Option GinCtx → String
  | none => "unknown"
  | some c =>
    let cid := c.getString CORRELATION_ID_KEY
    if cid ≠ "" then cid
    else
      let cid := c.getHeader "X-Correlation-ID"
      if cid ≠ "" then cid
      else
        let cid := c.getHeader CORRELATION_ID_KEY
        if cid ≠ "" then cid
        else "unknown"

/-- Embedding of `ServiceConfig` from `model_serviceconfig.go`. -/
structure ServiceConfig where
  Name : String
  Scope : String
  Version : String
  Build : String
deriving DecidableEq

/-- Embedding of `renderservice.getScope` (a `none` config models a nil
`*ServiceConfig`). -/
def getScope : Option ServiceConfig → String
  | some config => if config.Scope ≠ "" then config.Scope else "DEV"
  | none => "DEV"

/-- Embedding of `renderservice.getName`. -/
def getName : Option ServiceConfig → String
  | some config => if config.Name ≠ "" then config.Name else "omnis-service"
  | none => "omnis-service"

/-- External inputs of the render service: the Go runtime version and build
timestamp consumed by `getVersion`, and the arbor memory-log store consumed by
`getApiResponse` (keyed by correlation id, returning a log map or an error). -/
structure RenderEnv where
  goVersion : String
  buildTime : String
  getMemoryLogs : String → Except String (List (String × String))

/-- Embedding of `renderservice.getVersion`: base version (configured or
"1.0.0") extended with build information. -/
def getVersion (env : RenderEnv) (config : Option ServiceConfig) : String :=
  let baseVersion :=
    match config with
    | some c => if c.Version ≠ "" then c.Version else "1.0.0"
    | none => "1.0.0"
  baseVersion ++ "+build." ++ env.goVersion ++ "." ++ env.buildTime

/-- A JSON value, as produced by `encoding/json` unmarshalling into
`interface\x7b\x7d` (numbers simplified to integers). -/
inductive Json where
  | null
  | bool (b : Bool)
  | num (n : Int)
  | str (s : String)
  | arr (elems : List Json)
  | obj (fields : List (String × Json))

/-- A Go `interface\x7b\x7d` payload as seen by `json.Marshal`: nil, a
JSON-serializable value, or a value marshalling rejects (function, channel,
cyclic value). -/
inductive GoValue where
  | null
  | json (j : Json)
  | unsupported

/-- Embedding of `json.Marshal` on an `interface\x7b\x7d` payload. -/
def marshalGoValue : GoValue → Option Json
  | GoValue.null => some Json.null
  | GoValue.json j => some j
  | GoValue.unsupported => none

/-- Embedding of `ApiResponse` from `model_apiresponse.go` (the variant used
by `service_render.go`: `Err` tagged `error,omitempty`, `Stack`
`stack,omitempty`, `Request`/`Log` string maps with `omitempty`). -/
structure ApiResponse where
  Version : String
  Name : String
  Support : String
  Status : Int
  Scope : String
  CorrelationId : String
  Err : String
  Stack : List String
  Request : List (String × String)
  Log : List (String × String)
  Result : GoValue

/-- Embedding of `json.Marshal` on `ApiResponse`, following the struct tags of
`model_apiresponse.go`: fields in declaration order, `error`, `stack`,
`request` and `log` omitted when empty, failure exactly when the `Result`
payload is not serializable. -/
def marshalApiResponse (r : ApiResponse) : Option Json :=
  match marshalGoValue r.Result with
  | none => none
  | some res =>
    let base := [("version", Json.str r.Version), ("name", Json.str r.Name),
                 ("support", Json.str r.Support), ("status", Json.num r.Status),
                 ("scope", Json.str r.Scope), ("correlationid", Json.str r.CorrelationId)]
    let errF := if r.Err = "" then [] else [("error", Json.str r.Err)]
    let stackF := if r.Stack = [] then [] else [("stack", Json.arr (r.Stack.map Json.str))]
    let reqF := if r.Request = [] then []
                else [("request", Json.obj (r.Request.map (fun p => (p.1, Json.str p.2))))]
    let logF := if r.Log = [] then []
                else [("log", Json.obj (r.Log.map (fun p => (p.1, Json.str p.2))))]
    some (Json.obj (base ++ errF ++ stackF ++ reqF ++ logF ++ [("result", res)]))

/-- Go map insertion: overwrite any previous binding for the key. -/
def mapInsert (m : List (String × String)) (k v : String) : List (String × String) :=
  (m.filter (fun p => p.1 != k)) ++ [(k, v)]

/-- The request-description map `output` built by `getApiResponse` when the
scope is not "PRD": url, route params, post-form values and query values
(multi-values joined with ","). -/
def requestOutput (ctx : GinCtx) : List (String × String) :=
  let output := mapInsert [] "url" ctx.fullPath
  let output := ctx.params.foldl (fun m p => mapInsert m p.1 p.2) output
  let output := ctx.postForm.foldl (fun m p => mapInsert m p.1 (String.intercalate "," p.2)) output
  ctx.query.foldl (fun m p => mapInsert m p.1 (String.intercalate "," p.2)) output

/-- The `logs` map built by `getApiResponse`: retrieved memory logs when the
correlation id is not blank and retrieval succeeds, and a single "000"
warning entry on a blank id, a retrieval error, or an empty retrieval. -/
def responseLogs (env : RenderEnv) (cid : String) : List (String × String) :=
  let logs :=
    if 0 < (goTrim cid).length then
      match env.getMemoryLogs cid with
      | Except.error e => [("000", "WRN|error retrieving logs " ++ e)]
      | Except.ok retrievedLogs => retrievedLogs
    else
      [("000", "WRN|No correlation ID found - memory logging unavailable")]
  if logs.isEmpty then
    [("000", "WRN|No logs found for this request (memory logging may not be properly configured) CorrelationID:" ++ cid)]
  else logs

/-- Embedding of `renderservice.getApiResponse` from `service_render.go`. -/
def getApiResponse (env : RenderEnv) (ctx : GinCtx) (config : Option ServiceConfig)
    (code : Int) : ApiResponse :=
  let cid := GetCorrelationID (some ctx)
  let logs := responseLogs env cid
  let output := if getScope config ≠ "PRD" then requestOutput ctx else []
  { Version := getVersion env config
    Name := getName config
    Support := ""
    Status := code
    Scope := getScope config
    CorrelationId := cid
    Err := ""
    Stack := []
    Request := output
    Log := logs
    Result := GoValue.null }

/-- The observable outcome of `respondwithJSON`: the Content-Type header it
sets, whether it renders with `IndentedJSON` or `JSON`, the status code, and
the payload handed to the renderer. -/
structure Rendered (α : Type) where
  contentType : String
  indented : Bool
  status : Int
  body : α

/-- Embedding of `renderservice.respondwithJSON`. -/
def respondwithJSON (config : Option ServiceConfig) (code : Int) (payload : α) : Rendered α :=
  { contentType := "application/json"
    indented := goToUpper (getScope config) == "DEV"
    status := code
    body := payload }

/-- Embedding of `renderservice.AsResult`. -/
def AsResult (env : RenderEnv) (ctx : GinCtx) (config : Option ServiceConfig)
    (code : Int) (payload : GoValue) : Rendered ApiResponse :=
  let output := getApiResponse env ctx config code
  let output := { output with Result := payload }
  respondwithJSON config code output

/-- An error value reaching `AsError`/`AsResultWithError`: the message that
`errors.Wrap(err, 3).Error()` reports and the stack-trace lines that
`funktion.SplitLines(goerr.Stack())` produces (both external libraries,
modelled abstractly). -/
structure GoError where
  msg : String
  stackLines : List String

/-- Embedding of `renderservice.AsError` (a `none` error models a nil err). -/
def AsError (env : RenderEnv) (ctx : GinCtx) (config : Option ServiceConfig)
    (code : Int) (err : Option GoError) : Rendered ApiResponse :=
  let output := getApiResponse env ctx config code
  let output :=
    match err with
    | some goerr =>
      if getScope config = "DEV" then
        { output with Err := goerr.msg, Stack := goerr.stackLines }
      else output
    | none => output
  respondwithJSON config code output

/-- Embedding of `renderservice.AsResultWithError`. -/
def AsResultWithError (env : RenderEnv) (ctx : GinCtx) (config : Option ServiceConfig)
    (code : Int) (payload : GoValue) (err : Option GoError) : Rendered ApiResponse :=
  let output := getApiResponse env ctx config code
  let output := { output with Result := payload }
  let output :=
    match err with
    | some goerr =>
      if getScope config = "DEV" then
        { output with Err := goerr.msg, Stack := goerr.stackLines }
      else output
    | none => output
  respondwithJSON config code output

/-- Embedding of `renderservice.AsModel`: marshal the envelope (whose `Result`
is still nil); `none` models taking the marshal-error branch, in which no
response is written. -/
def AsModel (env : RenderEnv) (ctx : GinCtx) (config : Option ServiceConfig)
    (code : Int) : Option (Rendered Json) :=
  let apiresponse := getApiResponse env ctx config code
  match marshalApiResponse apiresponse with
  | none => none
  | some apidata => some (respondwithJSON config code apidata)

/-- Embedding of `JSONRendererConfig` from the JSON renderer middleware
(`jsonResponseInterceptor` variant): the service config, whether a default
logger is configured (`DefaultLogger != nil`), and the pretty-print flag. -/
structure JSONRendererConfig where
  serviceConfig : Option ServiceConfig
  hasDefaultLogger : Bool
  enablePrettyPrint : Bool
deriving DecidableEq

/-- Embedding of `jsonResponseInterceptor.isDevelopmentMode`: development when
there is no config or no service config, or the scope is "", "DEV" or
"DEVELOPMENT". -/
def isDevelopmentMode (config : Option JSONRendererConfig) : Bool :=
  match config with
  | none => true
  | some c =>
    match c.serviceConfig with
    | none => true
    | some sc => sc.Scope == "" || sc.Scope == "DEV" || sc.Scope == "DEVELOPMENT"

/-- The indentation condition of `jsonResponseInterceptor.Write`:
`w.config != nil && (w.config.EnablePrettyPrint || w.isDevelopmentMode())`. -/
def indentEnabled (config : Option JSONRendererConfig) : Bool :=
  match config with
  | some c => c.enablePrettyPrint || isDevelopmentMode (some c)
  | none => false

/-- Embedding of the `ApiResponse` variant used by the interceptor commit
(the minimal middleware model with a `Build` field, an `Error` field and
`interface\x7b\x7d`-valued maps). -/
structure ApiResponseI where
  Version : String
  Build : String
  Name : String
  Support : String
  Status : Int
  Scope : String
  CorrelationId : String
  Log : List (String × String)
  Result : Option Json
  Error : String
  Stack : List String
  Request : List (String × String)

mutual

/-- Rendering of an unmarshalled JSON value by Go's `fmt.Sprintf` `%v` verb,
as applied to the intercepted "error" field. -/
def goFmt : Json → String
  | Json.null => "<nil>"
  | Json.bool b => cond b "true" "false"
  | Json.num n => toString n
  | Json.str s => s
  | Json.arr elems => "[" ++ String.intercalate " " (goFmtList elems) ++ "]"
  | Json.obj fields => "map[" ++ String.intercalate " " (goFmtFields fields) ++ "]"

/-- Helper of `goFmt` for array elements. -/
def goFmtList : List Json → List String
  | [] => []
  | j :: rest => goFmt j :: goFmtList rest

/-- Helper of `goFmt` for object fields. -/
def goFmtFields : List (String × Json) → List String
  | [] => []
  | (k, v) :: rest => (k ++ ":" ++ goFmt v) :: goFmtFields rest

end

/-- Is a request-scoped logger stored in the context under `REQUEST_LOGGER`
(and of logger type), as the interceptor checks? -/
def ctxRequestLogger (ctx : GinCtx) : Bool :=
  match List.lookup REQUEST_LOGGER ctx.store with
  | some CtxVal.logger => true
  | _ => false

/-- Availability of a logger to the interceptor: a request logger from the
context, else a configured default logger. -/
def hasAvailableLogger (config : Option JSONRendererConfig) (ctx : GinCtx) : Bool :=
  ctxRequestLogger ctx ||
    (match config with
     | some c => c.hasDefaultLogger
     | none => false)

/-- The envelope-form check of `jsonResponseInterceptor.Write`: a JSON object
carrying "version", "name" and "result" keys. -/
def isEnvelopeForm (j : Json) : Bool :=
  match j with
  | Json.obj fields =>
    (List.lookup "version" fields).isSome && (List.lookup "name" fields).isSome &&
      (List.lookup "result" fields).isSome
  | _ => false

/-- Embedding of the envelope the interceptor builds when wrapping handler
output: defaults, service-config overrides, the correlation id looked up in
the context under the literal key "correlation-id", and the error-field move. -/
def buildWrapResponse (config : Option JSONRendererConfig) (status : Int) (ctx : GinCtx)
    (jsonData : Json) : ApiResponseI :=
  let base : ApiResponseI :=
    { Version := "1.0.0", Build := "", Name := "", Support := "", Status := status,
      Scope := "", CorrelationId := "", Log := [], Result := some jsonData,
      Error := "", Stack := [], Request := [] }
  let base :=
    match config with
    | some c =>
      match c.serviceConfig with
      | some sc => { base with Version := sc.Version, Build := sc.Build,
                               Name := sc.Name, Scope := sc.Scope }
      | none => base
    | none => base
  let base :=
    match List.lookup "correlation-id" ctx.store with
    | some (CtxVal.str id) => { base with CorrelationId := id }
    | _ => base
  match jsonData with
  | Json.obj fields =>
    match List.lookup "error" fields with
    | some errMsg => { base with Error := goFmt errMsg, Result := none }
    | none => base
  | _ => base

/-- The body bytes handed to `Write`: either bytes that `json.Unmarshal`
rejects, or bytes parsing to a JSON value. -/
inductive WriteBody where
  | raw
  | json (j : Json)

/-- The observable outcome of one interceptor `Write` call: forward the
original bytes unchanged, re-marshal an already-enveloped value (indented or
compact), or marshal a freshly wrapped envelope. -/
inductive WriteResult where
  | pass
  | reemit (indent : Bool) (j : Json)
  | wrap (indent : Bool) (resp : ApiResponseI)

/-- Embedding of the interceptor state: its middleware config and the
`written` flag. -/
structure Interceptor where
  config : Option JSONRendererConfig
  written : Bool

/-- Embedding of `jsonResponseInterceptor.Write` (the enveloping variant):
pass-through on repeat writes, non-JSON content types, missing loggers and
unparseable bodies; otherwise re-emit or wrap.  `status` is
`w.context.Writer.Status()` and `contentType` the current Content-Type
response header. -/
def interceptorWrite (w : Interceptor) (status : Int) (contentType : String)
    (body : WriteBody) (ctx : GinCtx) : WriteResult × Interceptor :=
  if w.written then (WriteResult.pass, w)
  else if !(containsSub contentType "application/json") then (WriteResult.pass, w)
  else
    let w := { w with written := true }
    let hasCtxLogger := ctxRequestLogger ctx
    let hasLogger :=
      hasCtxLogger ||
        (match w.config with
         | some c => c.hasDefaultLogger
         | none => false)
    if !hasLogger then (WriteResult.pass, w)
    else
      match body with
      | WriteBody.raw => (WriteResult.pass, w)
      | WriteBody.json jsonData =>
        if isEnvelopeForm jsonData then
          (WriteResult.reemit (indentEnabled w.config) jsonData, w)
        else
          (WriteResult.wrap (indentEnabled w.config)
            (buildWrapResponse w.config status ctx jsonData), w)

/-- The default exception list of the static-content middleware. -/
def defaultExceptions : List String := ["static/", "fav.ico", "favicon.ico", ".ico"]

/-- Helper of `mergeUnique`: fold the combined list, appending values not seen
before (the Go code tracks seen values in a map; membership of the output list
is the same information). -/
def mergeUniqueAux : List String → List String → List String
  | [], output => output
  | v :: rest, output =>
    if output.contains v then mergeUniqueAux rest output
    else mergeUniqueAux rest (output ++ [v])

/-- Embedding of `mergeUnique`: deduplicated concatenation keeping first
occurrences. -/
def mergeUnique (arr1 arr2 : List String) : List String :=
  mergeUniqueAux (arr1 ++ arr2) []

/-- Embedding of the request-processing body of `StaticRequests` (the
`ServiceConfig` variant): the response-header writes it performs.
`expiresValue` stands for `time.Now().Add(-1m).Format(time.RFC3339)`; the
middleware always calls `ctx.Next()` afterwards. -/
def StaticRequests (config : Option ServiceConfig) (e : List String)
    (fullPath expiresValue : String) : List (String × String) :=
  let requestExceptions := mergeUnique defaultExceptions e
  if fullPath != "" && requestExceptions.contains fullPath then
    let scope :=
      match config with
      | some c => if c.Scope ≠ "" then c.Scope else "DEV"
      | none => "DEV"
    if scope == "DEV" then [("Expires", expiresValue)] else []
  else []

/-- A version string always carries the "+build." infix, so it is never empty. -/
theorem getVersion_ne_empty (env : RenderEnv) (config : Option ServiceConfig) :
    getVersion env config ≠ "" := by
  intro h
  have hlen := congrArg String.length h
  simp only [getVersion, String.length_append] at hlen
  have h7 : ("+build." : String).length = 7 := rfl
  have h1 : ("." : String).length = 1 := rfl
  have h0 : ("" : String).length = 0 := rfl
  omega

/-- Replacing an empty list by a singleton warning never yields an empty list. -/
theorem ite_isEmpty_ne_nil (l : List (String × String)) (x : String × String) :
    (if l.isEmpty then [x] else l) ≠ [] := by
  cases l <;> simp

/-- The log map of an envelope is never empty. -/
theorem responseLogs_ne_nil (env : RenderEnv) (cid : String) :
    responseLogs env cid ≠ [] := by
  unfold responseLogs
  exact ite_isEmpty_ne_nil _ _

/-- C1: for every call `AsResult(code, payload)` on a render service built
from a non-nil gin context, the body written is the envelope built by
`getApiResponse` with `Result` set to the payload: its status equals `code`,
its correlation id equals `GetCorrelationID` of the context, its scope and
name are the configured values with defaults "DEV" and "omnis-service" when
the config is nil or the field empty, its result equals the payload, and it
carries a non-empty version string and a non-empty log map. -/
theorem asResult_writes_envelope (env : RenderEnv) (ctx : GinCtx)
    (config : Option ServiceConfig) (code : Int) (payload : GoValue) :
    (AsResult env ctx config code payload).body =
      { getApiResponse env ctx config code with Result := payload } ∧
    (AsResult env ctx config code payload).body.Status = code ∧
    (AsResult env ctx config code payload).body.CorrelationId = GetCorrelationID (some ctx) ∧
    (AsResult env ctx config code payload).body.Scope =
      (match config with
       | none => "DEV"
       | some c => if c.Scope = "" then "DEV" else c.Scope) ∧
    (AsResult env ctx config code payload).body.Name =
      (match config with
       | none => "omnis-service"
       | some c => if c.Name = "" then "omnis-service" else c.Name) ∧
    (AsResult env ctx config code payload).body.Result = payload ∧
    (AsResult env ctx config code payload).body.Version ≠ "" ∧
    (AsResult env ctx config code payload).body.Log ≠ [] := by
  refine ⟨rfl, rfl, rfl, ?_, ?_, rfl, ?_, ?_⟩
  · show getScope config = _
    cases config with
    | none => rfl
    | some c =>
      by_cases h : c.Scope = "" <;> simp [getScope, h]
  · show getName config = _
    cases config with
    | none => rfl
    | some c =>
      by_cases h : c.Name = "" <;> simp [getName, h]
  · exact getVersion_ne_empty env config
  · exact responseLogs_ne_nil env (GetCorrelationID (some ctx))

/-- Reading a context key just stored yields the stored string. -/
theorem getString_after_set (c : GinCtx) (k s : String) :
    (c.set k (CtxVal.str s)).getString k = s := by
  simp [GinCtx.set, GinCtx.getString, List.lookup]

/-- Setting a response header does not change the key/value store. -/
theorem getString_after_respHeader (c : GinCtx) (k v k2 : String) :
    (c.setRespHeader k v).getString k2 = c.getString k2 := rfl

/-- Reading back the response header just set yields its value. -/
theorem respHeader_same (c : GinCtx) (k v : String) :
    (c.setRespHeader k v).respHeader k = some v := by
  simp [GinCtx.setRespHeader, GinCtx.respHeader, List.lookup]

/-- Reading a different response header is unaffected by a header write. -/
theorem respHeader_other (c : GinCtx) (k v k2 : String) (hne : (k2 == k) = false) :
    (c.setRespHeader k v).respHeader k2 = c.respHeader k2 := by
  simp [GinCtx.setRespHeader, GinCtx.respHeader, List.lookup, hne]

/-- C2: after the `SetCorrelationID` middleware runs, the context entry under
`CORRELATION_ID_KEY` is non-empty and equals the pre-existing context value if
non-empty, else the request's X-Correlation-ID header if non-empty, else the
freshly generated UUID; and both response headers "X-Correlation-ID" and
"correlationid" carry that same value. -/
theorem setCorrelationID_assigns (ctx : GinCtx) (uuid : String) (h : uuid ≠ "") :
    (SetCorrelationID uuid ctx).getString CORRELATION_ID_KEY =
      (if ctx.getString CORRELATION_ID_KEY ≠ "" then ctx.getString CORRELATION_ID_KEY
       else if ctx.getHeader "X-Correlation-ID" ≠ "" then ctx.getHeader "X-Correlation-ID"
       else uuid) ∧
    (SetCorrelationID uuid ctx).getString CORRELATION_ID_KEY ≠ "" ∧
    (SetCorrelationID uuid ctx).respHeader "X-Correlation-ID" =
      some ((SetCorrelationID uuid ctx).getString CORRELATION_ID_KEY) ∧
    (SetCorrelationID uuid ctx).respHeader CORRELATION_ID_KEY =
      some ((SetCorrelationID uuid ctx).getString CORRELATION_ID_KEY) := by
  have hx : (("X-Correlation-ID" : String) == CORRELATION_ID_KEY) = false := by decide
  have hchain : ∀ a b : String,
      (if (if a = "" then b else a) = "" then uuid else (if a = "" then b else a)) =
        (if a ≠ "" then a else if b ≠ "" then b else uuid) := by
    intro a b
    by_cases ha : a = "" <;> by_cases hb : b = "" <;> simp [ha, hb]
  have hval : (SetCorrelationID uuid ctx).getString CORRELATION_ID_KEY =
      (if ctx.getString CORRELATION_ID_KEY ≠ "" then ctx.getString CORRELATION_ID_KEY
       else if ctx.getHeader "X-Correlation-ID" ≠ "" then ctx.getHeader "X-Correlation-ID"
       else uuid) := by
    show (GinCtx.setRespHeader _ _ _).getString _ = _
    rw [getString_after_respHeader, getString_after_respHeader, getString_after_set]
    exact hchain _ _
  have hne : (SetCorrelationID uuid ctx).getString CORRELATION_ID_KEY ≠ "" := by
    rw [hval]
    by_cases h1 : ctx.getString CORRELATION_ID_KEY = "" <;>
      by_cases h2 : ctx.getHeader "X-Correlation-ID" = "" <;>
        simp [h1, h2, h]
  refine ⟨hval, hne, ?_, ?_⟩
  · show (GinCtx.setRespHeader _ _ _).respHeader _ = _
    rw [respHeader_other _ _ _ _ hx, respHeader_same]
    show _ = some ((GinCtx.setRespHeader _ _ _).getString _)
    rw [getString_after_respHeader, getString_after_respHeader, getString_after_set]
  · show (GinCtx.setRespHeader _ _ _).respHeader _ = _
    rw [respHeader_same]
    show _ = some ((GinCtx.setRespHeader _ _ _).getString _)
    rw [getString_after_respHeader, getString_after_respHeader, getString_after_set]

/-- Closed instance of `setCorrelationID_assigns` on the empty context with a
concrete UUID. -/
theorem setCorrelationID_assigns_witness :
    (SetCorrelationID "550e8400-e29b-41d4-a716-446655440000" ginCtxEmpty).getString
        CORRELATION_ID_KEY = "550e8400-e29b-41d4-a716-446655440000" ∧
    (SetCorrelationID "550e8400-e29b-41d4-a716-446655440000" ginCtxEmpty).respHeader
        "X-Correlation-ID" = some "550e8400-e29b-41d4-a716-446655440000" := by
  have h := setCorrelationID_assigns ginCtxEmpty "550e8400-e29b-41d4-a716-446655440000"
    (by decide)
  refine ⟨?_, ?_⟩
  · rw [h.1]; rfl
  · rw [h.2.2.1, h.1]; rfl

/-- An envelope with empty `Err` and `Stack` serializes without "error" and
"stack" keys (the struct tags mark both `omitempty`). -/
theorem marshal_no_error_stack (r : ApiResponse) (h1 : r.Err = "") (h2 : r.Stack = [])
    (fs : List (String × Json)) (hm : marshalApiResponse r = some (Json.obj fs)) :
    List.lookup "error" fs = none ∧ List.lookup "stack" fs = none := by
  unfold marshalApiResponse at hm
  cases hres : marshalGoValue r.Result with
  | none => rw [hres] at hm; exact absurd hm (by simp)
  | some res =>
    rw [hres] at hm
    simp only [h1, h2, if_pos rfl, Option.some.injEq, Json.obj.injEq] at hm
    subst hm
    by_cases hq : r.Request = [] <;> by_cases hl : r.Log = [] <;>
      simp [hq, hl, List.lookup]

/-- C5: for `AsError(code, err)` and `AsResultWithError(code, payload, err)`,
the envelope's error and stack fields hold the wrapped error's message and
stack lines exactly when `err` is non-nil and the effective scope equals
"DEV"; otherwise both stay empty and the serialized JSON omits the "error"
and "stack" keys. -/
theorem asError_fields_iff_dev (env : RenderEnv) (ctx : GinCtx)
    (config : Option ServiceConfig) (code : Int) (payload : GoValue)
    (err : Option GoError) :
    (∀ ge, err = some ge → getScope config = "DEV" →
      (AsError env ctx config code err).body.Err = ge.msg ∧
      (AsError env ctx config code err).body.Stack = ge.stackLines ∧
      (AsResultWithError env ctx config code payload err).body.Err = ge.msg ∧
      (AsResultWithError env ctx config code payload err).body.Stack = ge.stackLines) ∧
    ((err = none ∨ getScope config ≠ "DEV") →
      (AsError env ctx config code err).body.Err = "" ∧
      (AsError env ctx config code err).body.Stack = [] ∧
      (AsResultWithError env ctx config code payload err).body.Err = "" ∧
      (AsResultWithError env ctx config code payload err).body.Stack = []) ∧
    (∀ fs, (err = none ∨ getScope config ≠ "DEV") →
      marshalApiResponse (AsError env ctx config code err).body = some (Json.obj fs) →
      List.lookup "error" fs = none ∧ List.lookup "stack" fs = none) ∧
    (∀ fs, (err = none ∨ getScope config ≠ "DEV") →
      marshalApiResponse (AsResultWithError env ctx config code payload err).body =
        some (Json.obj fs) →
      List.lookup "error" fs = none ∧ List.lookup "stack" fs = none) := by
  have hE : ∀ h : (err = none ∨ getScope config ≠ "DEV"),
      (AsError env ctx config code err).body.Err = "" ∧
      (AsError env ctx config code err).body.Stack = [] ∧
      (AsResultWithError env ctx config code payload err).body.Err = "" ∧
      (AsResultWithError env ctx config code payload err).body.Stack = [] := by
    intro h
    rcases h with h | h
    · subst h
      exact ⟨rfl, rfl, rfl, rfl⟩
    · cases err with
      | none => exact ⟨rfl, rfl, rfl, rfl⟩
      | some ge =>
        simp only [AsError, AsResultWithError, respondwithJSON, if_neg h]
        exact ⟨rfl, rfl, rfl, rfl⟩
  refine ⟨?_, hE, ?_, ?_⟩
  · intro ge hge hdev
    subst hge
    simp [AsError, AsResultWithError, respondwithJSON, if_pos hdev]
  · intro fs h hm
    exact marshal_no_error_stack _ (hE h).1 (hE h).2.1 fs hm
  · intro fs h hm
    exact marshal_no_error_stack _ (hE h).2.2.1 (hE h).2.2.2 fs hm

/-- An environment with a fixed memory-log store, for closed instances. -/
def envW : RenderEnv :=
  { goVersion := "go1.24.0", buildTime := "20250827.084917",
    getMemoryLogs := fun _ => Except.ok [("001", "INF|processing")] }

/-- A concrete wrapped error, for closed instances. -/
def geW : GoError := { msg := "boom", stackLines := ["goroutine 1:", "main.go:10"] }

/-- Closed instance of `asError_fields_iff_dev`: with a nil config (effective
scope "DEV") and a non-nil error the fields are populated. -/
theorem asError_fields_iff_dev_witness :
    (AsError envW ginCtxEmpty none 500 (some geW)).body.Err = "boom" ∧
    (AsError envW ginCtxEmpty none 500 (some geW)).body.Stack =
      ["goroutine 1:", "main.go:10"] := by
  have h := (asError_fields_iff_dev envW ginCtxEmpty none 500 GoValue.null
    (some geW)).1 geW rfl rfl
  exact ⟨h.1, h.2.1⟩

/-- C6: `respondwithJSON` sets Content-Type to "application/json" and renders
indented exactly when the upper-cased effective scope is "DEV"; the effective
scope defaults to "DEV" when the config is nil or its scope empty. -/
theorem respondwithJSON_pretty_iff_dev (config : Option ServiceConfig) (code : Int)
    (payload : ApiResponse) :
    (respondwithJSON config code payload).contentType = "application/json" ∧
    ((respondwithJSON config code payload).indented = true ↔
      goToUpper (getScope config) = "DEV") ∧
    getScope none = "DEV" ∧
    (∀ n v b, getScope (some { Name := n, Scope := "", Version := v, Build := b }) = "DEV") := by
  refine ⟨rfl, ?_, rfl, ?_⟩
  · simp [respondwithJSON]
  · intro n v b
    simp [getScope]

/-- C8: the envelope built by `getApiResponse` (whose `Result` is still nil)
always marshals, so `AsModel` never takes its marshal-error branch. -/
theorem getApiResponse_marshal_total (env : RenderEnv) (ctx : GinCtx)
    (config : Option ServiceConfig) (code : Int) :
    (marshalApiResponse (getApiResponse env ctx config code)).isSome = true ∧
    (AsModel env ctx config code).isSome = true := by
  have hres : (getApiResponse env ctx config code).Result = GoValue.null := rfl
  constructor
  · simp [marshalApiResponse, hres, marshalGoValue]
  · simp [AsModel, marshalApiResponse, hres, marshalGoValue]

/-- C9: the envelope's log map is never empty: it equals the retrieved memory
logs when retrieval succeeds with entries, and otherwise holds exactly one
"000" warning entry (blank correlation id, retrieval error, or zero logs). -/
theorem getApiResponse_log_invariant (env : RenderEnv) (ctx : GinCtx)
    (config : Option ServiceConfig) (code : Int) :
    (getApiResponse env ctx config code).Log ≠ [] ∧
    ((∃ logs, env.getMemoryLogs (GetCorrelationID (some ctx)) = Except.ok logs ∧
        logs ≠ [] ∧ (getApiResponse env ctx config code).Log = logs) ∨
      (∃ m, (getApiResponse env ctx config code).Log = [("000", m)])) := by
  refine ⟨responseLogs_ne_nil env (GetCorrelationID (some ctx)), ?_⟩
  have hlog : (getApiResponse env ctx config code).Log =
      responseLogs env (GetCorrelationID (some ctx)) := rfl
  rw [hlog]
  unfold responseLogs
  by_cases hb : 0 < (goTrim (GetCorrelationID (some ctx))).length
  · rw [if_pos hb]
    cases hml : env.getMemoryLogs (GetCorrelationID (some ctx)) with
    | error e =>
      right
      refine ⟨"WRN|error retrieving logs " ++ e, ?_⟩
      rfl
    | ok logs =>
      cases hl : logs with
      | nil =>
        right
        refine ⟨"WRN|No logs found for this request (memory logging may not be properly configured) CorrelationID:" ++
          GetCorrelationID (some ctx), ?_⟩
        rfl
      | cons p rest =>
        left
        subst hl
        exact ⟨p :: rest, rfl, by simp, rfl⟩
  · rw [if_neg hb]
    right
    refine ⟨"WRN|No correlation ID found - memory logging unavailable", ?_⟩
    rfl

/-- Membership in `mergeUniqueAux` is membership in the remaining input or the
accumulated output. -/
theorem mergeUniqueAux_mem (x : String) :
    ∀ l output : List String, x ∈ mergeUniqueAux l output ↔ x ∈ l ∨ x ∈ output := by
  intro l
  induction l with
  | nil => intro output; simp [mergeUniqueAux]
  | cons v rest ih =>
    intro output
    by_cases hc : output.contains v
    · rw [mergeUniqueAux, if_pos hc, ih]
      constructor
      · rintro (h | h)
        · exact Or.inl (List.mem_cons_of_mem v h)
        · exact Or.inr h
      · rintro (h | h)
        · rcases List.mem_cons.mp h with h | h
          · subst h
            exact Or.inr (by simpa using hc)
          · exact Or.inl h
        · exact Or.inr h
    · rw [mergeUniqueAux, if_neg hc, ih]
      constructor
      · rintro (h | h)
        · exact Or.inl (List.mem_cons_of_mem v h)
        · rcases List.mem_append.mp h with h | h
          · exact Or.inr h
          · simp at h
            subst h
            exact Or.inl (List.mem_cons_self _ _)
      · rintro (h | h)
        · rcases List.mem_cons.mp h with h | h
          · subst h
            exact Or.inr (List.mem_append_right _ (by simp))
          · exact Or.inl h
        · exact Or.inr (List.mem_append_left _ h)

/-- `mergeUniqueAux` preserves freedom from duplicates of its accumulator. -/
theorem mergeUniqueAux_nodup :
    ∀ l output : List String, output.Nodup → (mergeUniqueAux l output).Nodup := by
  intro l
  induction l with
  | nil => intro output h; simpa [mergeUniqueAux] using h
  | cons v rest ih =>
    intro output h
    by_cases hc : output.contains v
    · rw [mergeUniqueAux, if_pos hc]
      exact ih output h
    · rw [mergeUniqueAux, if_neg hc]
      apply ih
      have hv : v ∉ output := by simpa using hc
      simp [List.nodup_append, h, hv]

/-- C7: `StaticRequests` writes the past-dated Expires header exactly when the
request's full path is non-empty, lies in the deduplicated merge of the
default exceptions with the caller-supplied list, and the effective scope is
"DEV"; every other request passes through with no header written.  The merge
is duplicate-free and carries exactly the members of both lists. -/
theorem staticRequests_expires_iff (config : Option ServiceConfig) (e : List String)
    (fullPath expiresValue : String) :
    StaticRequests config e fullPath expiresValue =
      (if fullPath ≠ "" ∧ fullPath ∈ mergeUnique defaultExceptions e ∧
          getScope config = "DEV"
       then [("Expires", expiresValue)] else []) ∧
    (mergeUnique defaultExceptions e).Nodup ∧
    (∀ x, x ∈ mergeUnique defaultExceptions e ↔ x ∈ defaultExceptions ∨ x ∈ e) := by
  refine ⟨?_, mergeUniqueAux_nodup _ [] List.nodup_nil, ?_⟩
  · unfold StaticRequests
    by_cases hp : fullPath = ""
    · simp [hp]
    · have hb : (fullPath != "") = true := by simpa using hp
      by_cases hm : fullPath ∈ mergeUnique defaultExceptions e
      · have hc : (mergeUnique defaultExceptions e).contains fullPath = true := by
          simpa using hm
        by_cases hs : getScope config = "DEV"
        · cases config with
          | none => simp [hb, hc, hp, hm, hs]
          | some c =>
            by_cases hsc : c.Scope = ""
            · simp [hb, hc, hp, hm, hs, hsc]
            · have hdev : c.Scope = "DEV" := by simpa [getScope, hsc] using hs
              simp [hb, hc, hp, hm, hs, hsc, hdev]
        · cases config with
          | none => exact absurd rfl hs
          | some c =>
            by_cases hsc : c.Scope = ""
            · exact absurd (by simp [getScope, hsc]) hs
            · have hdev : (c.Scope == "DEV") = false := by
                apply beq_eq_false_iff_ne.mpr
                intro h
                exact hs (by simp [getScope, hsc, h])
              simp [hb, hc, hp, hm, hs, hsc, hdev]
      · have hc : (mergeUnique defaultExceptions e).contains fullPath = false := by
          simpa using hm
        simp [hb, hc, hp, hm]
  · intro x
    rw [mergeUnique, mergeUniqueAux_mem]
    simp

/-- A concrete middleware config with a default logger, no service config and
pretty-print off. -/
def cfgW : JSONRendererConfig :=
  { serviceConfig := none, hasDefaultLogger := true, enablePrettyPrint := false }

/-- A concrete non-envelope JSON body. -/
def jW : Json := Json.obj [("a", Json.num 1)]

/-- C3 counterexample: a first `Write` with Content-Type "application/json"
and a parseable JSON body is NOT re-emitted when no logger is available (here:
no request logger in the context and a nil middleware config): the bytes pass
through unchanged, contradicting the claim that every parseable JSON first
write is re-emitted. -/
theorem interceptorWrite_pass_without_logger :
    (interceptorWrite { config := none, written := false } 200 "application/json"
        (WriteBody.json jW) ginCtxEmpty).1 = WriteResult.pass := rfl

/-- C3 (amended): a repeat `Write` passes through; a first `Write` passes
bytes through unchanged when the Content-Type does not contain
"application/json", when no logger is available (no request logger in the
context and no configured default logger), or when the body does not parse;
otherwise the body is re-emitted when already in envelope form and wrapped in
the envelope otherwise, indented exactly when a middleware config is present
and its pretty-print flag is set or it is in development mode (no service
config, or scope "", "DEV" or "DEVELOPMENT"). -/
theorem interceptorWrite_amended (w : Interceptor) (status : Int) (ct : String)
    (body : WriteBody) (ctx : GinCtx) :
    (w.written = true → (interceptorWrite w status ct body ctx).1 = WriteResult.pass) ∧
    (containsSub ct "application/json" = false →
      (interceptorWrite w status ct body ctx).1 = WriteResult.pass) ∧
    (w.written = false → containsSub ct "application/json" = true →
      hasAvailableLogger w.config ctx = false →
      (interceptorWrite w status ct body ctx).1 = WriteResult.pass) ∧
    (w.written = false → containsSub ct "application/json" = true →
      hasAvailableLogger w.config ctx = true →
      (interceptorWrite w status ct WriteBody.raw ctx).1 = WriteResult.pass) ∧
    (∀ j, w.written = false → containsSub ct "application/json" = true →
      hasAvailableLogger w.config ctx = true →
      (interceptorWrite w status ct (WriteBody.json j) ctx).1 =
        (if isEnvelopeForm j then WriteResult.reemit (indentEnabled w.config) j
         else WriteResult.wrap (indentEnabled w.config)
           (buildWrapResponse w.config status ctx j))) ∧
    (∀ pretty hasLog sc, indentEnabled (some
        { serviceConfig := some sc, hasDefaultLogger := hasLog,
          enablePrettyPrint := pretty }) =
      (pretty || (sc.Scope == "" || sc.Scope == "DEV" || sc.Scope == "DEVELOPMENT"))) := by
  refine ⟨?_, ?_, ?_, ?_, ?_, ?_⟩
  · intro hw
    simp [interceptorWrite, hw]
  · intro hct
    by_cases hw : w.written
    · simp [interceptorWrite, hw]
    · simp [interceptorWrite, hw, hct]
  · intro hw hct hlog
    have hlog2 : (ctxRequestLogger ctx ||
        (match w.config with
         | some c => c.hasDefaultLogger
         | none => false)) = false := hlog
    simp [interceptorWrite, hw, hct, hlog2]
  · intro hw hct hlog
    have hlog2 : (ctxRequestLogger ctx ||
        (match w.config with
         | some c => c.hasDefaultLogger
         | none => false)) = true := hlog
    simp [interceptorWrite, hw, hct, hlog2]
  · intro j hw hct hlog
    have hlog2 : (ctxRequestLogger ctx ||
        (match w.config with
         | some c => c.hasDefaultLogger
         | none => false)) = true := hlog
    by_cases henv : isEnvelopeForm j
    · simp [interceptorWrite, hw, hct, hlog2, henv]
    · simp [interceptorWrite, hw, hct, hlog2, henv]
  · intro pretty hasLog sc
    rfl

/-- Closed instance of `interceptorWrite_amended`: with a configured default
logger and no service config, a non-envelope JSON body is wrapped, indented. -/
theorem interceptorWrite_amended_witness :
    (interceptorWrite { config := some cfgW, written := false } 200 "application/json"
        (WriteBody.json jW) ginCtxEmpty).1 =
      WriteResult.wrap true (buildWrapResponse (some cfgW) 200 ginCtxEmpty jW) := by
  have h := (interceptorWrite_amended { config := some cfgW, written := false } 200
    "application/json" (WriteBody.json jW) ginCtxEmpty).2.2.2.2.1 jW rfl (by decide) rfl
  have henv : isEnvelopeForm jW = false := rfl
  rw [henv] at h
  simpa using h

/-- The context state after the correlation middleware stored a concrete id. -/
def ctxAfterCorrelation : GinCtx := SetCorrelationID "id-123" ginCtxEmpty

/-- C4: the correlation middleware stores the id under the key
"correlationid", but the interceptor reads the context under the literal key
"correlation-id"; consequently the envelope it wraps carries an empty
correlation id instead of the one assigned for the request. -/
theorem interceptor_drops_correlation_id :
    ctxAfterCorrelation.getString CORRELATION_ID_KEY = "id-123" ∧
    (interceptorWrite { config := some cfgW, written := false } 200 "application/json"
        (WriteBody.json jW) ctxAfterCorrelation).1 =
      WriteResult.wrap true (buildWrapResponse (some cfgW) 200 ctxAfterCorrelation jW) ∧
    (buildWrapResponse (some cfgW) 200 ctxAfterCorrelation jW).CorrelationId = "" ∧
    ("" : String) ≠ "id-123" := by
  exact ⟨rfl, rfl, rfl, by decide⟩

/-- A context whose stored correlation id is a single space. -/
def ctxWs : GinCtx := { ginCtxEmpty with store := [(CORRELATION_ID_KEY, CtxVal.str " ")] }

/-- C10 counterexample: with a whitespace-only correlation id stored in the
context, `GetCorrelationID` returns a non-empty string, yet `getApiResponse`
takes the blank-correlation-id warning branch, ignoring the memory logs the
environment would have served. -/
theorem blank_branch_reachable :
    GetCorrelationID (some ctxWs) = " " ∧
    GetCorrelationID (some ctxWs) ≠ "" ∧
    (getApiResponse envW ctxWs none 200).Log =
      [("000", "WRN|No correlation ID found - memory logging unavailable")] ∧
    envW.getMemoryLogs (GetCorrelationID (some ctxWs)) =
      Except.ok [("001", "INF|processing")] := by
  exact ⟨rfl, by decide, rfl, rfl⟩

/-- C10 (amended): `GetCorrelationID` is total and never returns the empty
string: it yields the context entry under `CORRELATION_ID_KEY` if non-empty,
else the X-Correlation-ID request header if non-empty, else the
"correlationid" request header if non-empty, else "unknown"; consequently the
envelope's correlationid field is never empty.  The blank-correlation-id
warning branch of `getApiResponse`, however, can still be taken when the
correlation id is non-empty but whitespace-only. -/
theorem getCorrelationID_total_nonempty :
    (∀ octx : Option GinCtx,
      GetCorrelationID octx ≠ "" ∧
      GetCorrelationID octx =
        (match octx with
         | none => "unknown"
         | some c =>
           if c.getString CORRELATION_ID_KEY ≠ "" then c.getString CORRELATION_ID_KEY
           else if c.getHeader "X-Correlation-ID" ≠ "" then c.getHeader "X-Correlation-ID"
           else if c.getHeader "correlationid" ≠ "" then c.getHeader "correlationid"
           else "unknown")) ∧
    (∀ env ctx config code,
      (getApiResponse env ctx config code).CorrelationId = GetCorrelationID (some ctx) ∧
      (getApiResponse env ctx config code).CorrelationId ≠ "") := by
  have hne : ∀ octx : Option GinCtx, GetCorrelationID octx ≠ "" := by
    intro octx
    cases octx with
    | none => decide
    | some c =>
      simp only [GetCorrelationID]
      by_cases h1 : c.getString CORRELATION_ID_KEY = ""
      · by_cases h2 : c.getHeader "X-Correlation-ID" = ""
        · by_cases h3 : c.getHeader CORRELATION_ID_KEY = ""
          · simp [h1, h2, h3]
          · simp [h1, h2, h3]
        · simp [h1, h2]
      · simp [h1]
  refine ⟨fun octx => ⟨hne octx, ?_⟩, fun env ctx config code => ⟨rfl, hne (some ctx)⟩⟩
  cases octx with
  | none => rfl
  | some c =>
    show GetCorrelationID (some c) = _
    simp only [GetCorrelationID, CORRELATION_ID_KEY]

end Omnis
